import Mathlib

/-!
Verification of the border-nodata detection core of the bulldozer
preprocessing module, and of its Cython wrapper
(src/bulldozer/preprocessing/bordernodata/bordernodata.pyx).

Raster samples are IEEE float32 values used only through exact equality
comparison with a sentinel, so they are embedded as an inductive type with
a distinguished NaN (which compares unequal to everything, itself included)
and an integer payload for the finite values that appear in the claims.
-/

/-- A raster sample: either IEEE NaN or a finite float32 value, the latter
abstracted by an integer since the program only compares samples for exact
equality. -/
inductive Sample where
  | nan : Sample
  | num : Int → Sample
deriving DecidableEq, Repr

/-- Exact IEEE equality on samples: NaN is equal to nothing, finite values
are equal exactly when their payloads coincide. -/
def sampleEq : Sample → Sample → Bool
  | Sample.nan, _ => false
  | Sample.num _, Sample.nan => false
  | Sample.num a, Sample.num b => a == b

/-- Modelled from the spec: the inner edge scan of the missing C++
BorderNodata::buildBorderNodataMask. Walking a scan line from its first
element, while the sample equals the sentinel the position is marked true;
the scan stops at the first sample that differs (every later position is
left unmarked by this scan). -/
def scanLine (nd : Sample) : List Sample → List Bool
  | [] => []
  | x :: xs =>
    if sampleEq x nd then true :: scanLine nd xs
    else List.replicate (xs.length + 1) false

/-- Modelled from the spec: marks contributed to one scan line by its two
directional scans, the forward scan and the backward scan (the backward
scan is the forward scan of the reversed line, written back reversed),
combined by logical OR. -/
def lineMarks (nd : Sample) (line : List Sample) : List Bool :=
  List.zipWith or (scanLine nd line) ((scanLine nd line.reverse).reverse)

/-- Column c of a raster stored as a list of rows; positions outside a row
read as NaN, which no sentinel comparison ever matches (the spec makes
out-of-shape access undefined behaviour). -/
def column (m : List (List Sample)) (c : Nat) : List Sample :=
  m.map (fun row => row.getD c Sample.nan)

/-- The pre-zeroed h by w mask buffer the caller hands to the detector. -/
def zeroMask (h w : Nat) : List (List Bool) :=
  List.replicate h (List.replicate w false)

/-- Mask entry at row r, column c (false outside the buffer). -/
def maskAt (mask : List (List Bool)) (r c : Nat) : Bool :=
  (mask.getD r []).getD c false

/-- Raster sample at row r, column c (NaN outside the buffer). -/
def rasterAt (m : List (List Sample)) (r c : Nat) : Sample :=
  (m.getD r []).getD c Sample.nan

/-- Modelled from the spec: the missing C++ entry point
BorderNodata::buildBorderNodataMask(raster, mask, height, width,
noDataValue). Every row is scanned from its left and right edges, every
column from its top and bottom edges, and the final value of a mask cell
is the logical OR of the cell's initial value with the marks of the four
directional scans through it. -/
def buildBorderNodataMask (raster : List (List Sample)) (mask : List (List Bool))
    (h w : Nat) (nd : Sample) : List (List Bool) :=
  (List.range h).map (fun r =>
    (List.range w).map (fun c =>
      ((mask.getD r []).getD c false)
      || ((lineMarks nd (raster.getD r [])).getD c false)
      || ((lineMarks nd (column raster c)).getD r false)))

/-- A pixel lies in the leading border run of its scan line when every
sample from the line's first element up to and including the pixel equals
the sentinel. -/
def inLeadingRun (nd : Sample) (line : List Sample) (c : Nat) : Bool :=
  decide (c < line.length) && (line.take (c + 1)).all (fun x => sampleEq x nd)

/-- A pixel lies in the trailing border run of its scan line when every
sample from the pixel to the line's last element equals the sentinel. -/
def inTrailingRun (nd : Sample) (line : List Sample) (c : Nat) : Bool :=
  decide (c < line.length) && (line.drop c).all (fun x => sampleEq x nd)

/-- The detector call as a transformer of the caller-visible state, raster
and mask buffers, used to state frame conditions. -/
structure DetectorCall where
  raster : List (List Sample)
  mask : List (List Bool)
deriving DecidableEq, Repr

/-- Modelled from the spec: running the missing C++ detector on the state
formed by the two caller-owned buffers; the spec declares it a pure
function that writes only into the mask buffer. -/
def runDetector (st : DetectorCall) (h w : Nat) (nd : Sample) : DetectorCall :=
  { raster := st.raster,
    mask := buildBorderNodataMask st.raster st.mask h w nd }

/-!
The Cython wrapper PyBorderNodata.build_border_nodata_mask, embedded from
src/bulldozer/preprocessing/bordernodata/bordernodata.pyx.
-/

/-- Python truthiness of a float: 0.0 is falsy, every other float, NaN
included, is truthy. -/
def pyTruthy : Sample → Bool
  | Sample.nan => true
  | Sample.num x => x != 0

/-- np.nan_to_num with nan=-32768: NaN samples become -32768, finite
samples are unchanged. -/
def nanToNum : Sample → Sample
  | Sample.nan => Sample.num (-32768)
  | Sample.num x => Sample.num x

/-- Outcome of a wrapper call: the returned boolean mask, or the Python
exception the call raises. -/
inductive PyOutcome where
  | ok : List (List Bool) → PyOutcome
  | unboundLocalError : PyOutcome
  | indexError : PyOutcome
deriving DecidableEq, Repr

/-- Caller-visible effect of a wrapper call: the dsm_strip array after the
call (np.nan_to_num is applied with copy=False, in place) and the outcome. -/
structure PyCallResult where
  dsm_strip : List (List Sample)
  outcome : PyOutcome
deriving DecidableEq, Repr

/-- PyBorderNodata.build_border_nodata_mask from the pyx source. When
no_data_value is falsy the wrapper rewrites NaN samples of dsm_strip to
-32768 in place, substitutes -32768 for the sentinel, and builds the
float32 memoryview dsm_memview; that memoryview assignment sits inside the
falsy branch, so a truthy no_data_value reaches the native call with
dsm_memview unassigned and the access raises UnboundLocalError. With a
falsy sentinel and an empty strip, taking the address of element 0 of the
empty memoryview raises IndexError. Otherwise the native detector is
invoked on the strip with a freshly zeroed mask and the reshaped boolean
mask is returned. -/
def build_border_nodata_mask (dsm_strip : List (List Sample))
    (no_data_value : Sample) : PyCallResult :=
  if pyTruthy no_data_value then
    { dsm_strip := dsm_strip, outcome := PyOutcome.unboundLocalError }
  else
    let strip := dsm_strip.map (List.map nanToNum)
    let nd : Sample := Sample.num (-32768)
    let h := strip.length
    let w := (strip.headD []).length
    if h * w == 0 then
      { dsm_strip := strip, outcome := PyOutcome.indexError }
    else
      { dsm_strip := strip,
        outcome := PyOutcome.ok (buildBorderNodataMask strip (zeroMask h w) h w nd) }

/-!
Basic index lemmas about getD on lists, used to relate the directional
scans to their run characterisations.
-/

/-- getD on a replicate list with the replicated value as default. -/
theorem getD_replicate_self {α : Type} (n i : Nat) (a : α) :
    (List.replicate n a).getD i a = a := by
  induction n generalizing i with
  | zero => rfl
  | succ n ih =>
    cases i with
    | zero => rfl
    | succ i =>
      rw [List.replicate_succ, List.getD_cons_succ]
      exact ih i

/-- An in-bounds getD is a member of the list. -/
theorem getD_mem {α : Type} (l : List α) (i : Nat) (d : α) (hi : i < l.length) :
    l.getD i d ∈ l := by
  rw [List.getD_eq_getElem _ _ hi]
  exact List.getElem_mem hi

/-- getD through take, below the cut. -/
theorem getD_take {α : Type} (l : List α) (k j : Nat) (d : α) (hj : j < k) :
    (l.take k).getD j d = l.getD j d := by
  induction l generalizing k j with
  | nil => simp
  | cons x xs ih =>
    cases k with
    | zero => exact absurd hj (Nat.not_lt_zero j)
    | succ k =>
      cases j with
      | zero => rfl
      | succ j =>
        rw [List.take_succ_cons, List.getD_cons_succ, List.getD_cons_succ]
        exact ih k j (Nat.lt_of_succ_lt_succ hj)

/-- getD through drop. -/
theorem getD_drop {α : Type} (l : List α) (i j : Nat) (d : α) :
    (l.drop i).getD j d = l.getD (i + j) d := by
  induction l generalizing i with
  | nil => simp
  | cons x xs ih =>
    cases i with
    | zero => simp
    | succ i =>
      rw [List.drop_succ_cons, ih]
      have h5 : i + 1 + j = (i + j) + 1 := by omega
      rw [h5, List.getD_cons_succ]

/-- getD on a reversed list. -/
theorem getD_reverse {α : Type} (l : List α) (c : Nat) (d : α) (hc : c < l.length) :
    l.reverse.getD c d = l.getD (l.length - 1 - c) d := by
  have h1 : c < l.reverse.length := by simpa using hc
  have h2 : l.length - 1 - c < l.length := Nat.sub_one_sub_lt_of_lt hc
  rw [List.getD_eq_getElem _ _ h1, List.getD_eq_getElem _ _ h2, List.getElem_reverse]

/-- zipWith of two equally replicated lists. -/
theorem zipWith_replicate {α β γ : Type} (f : α → β → γ) (n : Nat) (a : α) (b : β) :
    List.zipWith f (List.replicate n a) (List.replicate n b)
      = List.replicate n (f a b) := by
  induction n with
  | zero => rfl
  | succ n ih => simp [List.replicate_succ, ih]

/-- getD of a pointwise OR of two equally long lists. -/
theorem zipWith_or_getD (a b : List Bool) (c : Nat) (hc : c < a.length)
    (hl : a.length = b.length) :
    (List.zipWith or a b).getD c false = (a.getD c false || b.getD c false) := by
  induction a generalizing b c with
  | nil => exact absurd hc (Nat.not_lt_zero c)
  | cons x xs ih =>
    cases b with
    | nil => simp at hl
    | cons y ys =>
      cases c with
      | zero => rfl
      | succ c =>
        have hc' : c < xs.length := Nat.lt_of_succ_lt_succ hc
        have hl' : xs.length = ys.length := by simpa using hl
        simpa using ih ys c hc' hl'

/-!
Characterisation of the directional scans.
-/

/-- The scan marks exactly as many positions as the line has samples. -/
theorem scanLine_length (nd : Sample) (l : List Sample) :
    (scanLine nd l).length = l.length := by
  induction l with
  | nil => rfl
  | cons x xs ih =>
    rw [scanLine]
    by_cases hx : sampleEq x nd
    · simp [hx, ih]
    · simp [hx]

/-- A position is marked by the forward scan exactly when every sample up
to and including it equals the sentinel. -/
theorem scanLine_getD (nd : Sample) (l : List Sample) (c : Nat) (hc : c < l.length) :
    (scanLine nd l).getD c false = (l.take (c + 1)).all (fun x => sampleEq x nd) := by
  induction l generalizing c with
  | nil => exact absurd hc (Nat.not_lt_zero c)
  | cons x xs ih =>
    cases hx : sampleEq x nd with
    | true =>
      cases c with
      | zero => simp [scanLine, hx]
      | succ c =>
        have hc' : c < xs.length := Nat.lt_of_succ_lt_succ hc
        have ihc := ih c hc'
        simp [scanLine, hx, List.getD_cons_succ] at ihc ⊢
        exact ihc
    | false =>
      have h1 : (scanLine nd (x :: xs)).getD c false = false := by
        rw [scanLine]
        simp only [hx, Bool.false_eq_true, if_false]
        exact getD_replicate_self (xs.length + 1) c false
      have h2 : ((x :: xs).take (c + 1)).all (fun x => sampleEq x nd) = false := by
        simp [List.take_succ_cons, hx]
      rw [h1, h2]

/-- A position is marked by the backward scan exactly when every sample
from it to the end of the line equals the sentinel. -/
theorem scanLine_reverse_getD (nd : Sample) (l : List Sample) (c : Nat)
    (hc : c < l.length) :
    ((scanLine nd l.reverse).reverse).getD c false
      = (l.drop c).all (fun x => sampleEq x nd) := by
  have hlen : (scanLine nd l.reverse).length = l.length := by
    rw [scanLine_length, List.length_reverse]
  have hc1 : c < (scanLine nd l.reverse).length := by rw [hlen]; exact hc
  rw [getD_reverse _ _ _ hc1, hlen]
  have hc2 : l.length - 1 - c < l.reverse.length := by
    simpa using Nat.sub_one_sub_lt_of_lt hc
  rw [scanLine_getD nd l.reverse _ hc2]
  have harith : l.length - 1 - c + 1 = l.length - c := by omega
  rw [harith]
  have hrd := (@List.reverse_drop _ l c).symm
  rw [hrd, List.all_reverse]

/-- In bounds, the per-line marks are exactly membership of the leading or
of the trailing border run. -/
theorem lineMarks_getD (nd : Sample) (l : List Sample) (c : Nat) (hc : c < l.length) :
    (lineMarks nd l).getD c false = (inLeadingRun nd l c || inTrailingRun nd l c) := by
  have h1 : c < (scanLine nd l).length := by rw [scanLine_length]; exact hc
  have h2 : (scanLine nd l).length = ((scanLine nd l.reverse).reverse).length := by
    simp [scanLine_length]
  rw [lineMarks, zipWith_or_getD _ _ _ h1 h2, scanLine_getD nd l c hc,
      scanLine_reverse_getD nd l c hc, inLeadingRun, inTrailingRun]
  simp [hc]

/-!
Raster-level lemmas: reading single cells of the detector output.
-/

/-- getD through map over range, in bounds. -/
theorem range_map_getD {α : Type} (n : Nat) (f : Nat → α) (r : Nat) (d : α)
    (hr : r < n) :
    ((List.range n).map f).getD r d = f r := by
  have h1 : r < ((List.range n).map f).length := by simpa using hr
  rw [List.getD_eq_getElem _ _ h1]
  simp

/-- A column has one entry per raster row. -/
theorem column_length (m : List (List Sample)) (c : Nat) :
    (column m c).length = m.length := by
  simp [column]

/-- In bounds, a column entry is the corresponding raster cell. -/
theorem column_getD (m : List (List Sample)) (c r : Nat) (hr : r < m.length) :
    (column m c).getD r Sample.nan = rasterAt m r c := by
  have h1 : r < (column m c).length := by rw [column_length]; exact hr
  rw [List.getD_eq_getElem _ _ h1]
  simp only [column, List.getElem_map]
  rw [rasterAt, List.getD_eq_getElem _ _ hr]

/-- Double getD into the pre-zeroed mask is always false. -/
theorem replicate_getD_getD (h w r c : Nat) :
    ((List.replicate h (List.replicate w false)).getD r []).getD c false = false := by
  by_cases hr : r < h
  · have h1 : r < (List.replicate h (List.replicate w false)).length := by simpa using hr
    rw [List.getD_eq_getElem _ _ h1, List.getElem_replicate]
    exact getD_replicate_self w c false
  · have hx : (List.replicate h (List.replicate w false)).getD r [] = [] :=
      List.getD_eq_default _ _ (by simpa using Nat.le_of_not_lt hr)
    rw [hx]
    rfl

/-- Reading the pre-zeroed mask gives false everywhere. -/
theorem maskAt_zeroMask (h w r c : Nat) : maskAt (zeroMask h w) r c = false := by
  rw [maskAt, zeroMask]
  exact replicate_getD_getD h w r c

/-- One cell of the detector output: the cell's initial mask value ORed
with the marks of the row scans and of the column scans through it. -/
theorem maskAt_build (raster : List (List Sample)) (mask : List (List Bool))
    (h w : Nat) (nd : Sample) (r c : Nat) (hr : r < h) (hc : c < w) :
    maskAt (buildBorderNodataMask raster mask h w nd) r c
      = (maskAt mask r c
          || (lineMarks nd (raster.getD r [])).getD c false
          || (lineMarks nd (column raster c)).getD r false) := by
  rw [maskAt, buildBorderNodataMask]
  rw [range_map_getD _ _ _ _ hr, range_map_getD _ _ _ _ hc]
  rfl

/-- Cell-level characterisation of the detector on the pre-zeroed mask:
a cell is the OR of leading- and trailing-run membership along its row and
along its column. -/
theorem maskAt_build_runs (raster : List (List Sample)) (h w : Nat) (nd : Sample)
    (hh : raster.length = h) (hw : ∀ row ∈ raster, row.length = w)
    (r c : Nat) (hr : r < h) (hc : c < w) :
    maskAt (buildBorderNodataMask raster (zeroMask h w) h w nd) r c
      = (inLeadingRun nd (raster.getD r []) c
         || inTrailingRun nd (raster.getD r []) c
         || inLeadingRun nd (column raster c) r
         || inTrailingRun nd (column raster c) r) := by
  have hrl : r < raster.length := by rw [hh]; exact hr
  have hrow : (raster.getD r []).length = w := hw _ (getD_mem raster r [] hrl)
  have hcol : (column raster c).length = h := by rw [column_length, hh]
  rw [maskAt_build _ _ _ _ _ _ _ hr hc, maskAt_zeroMask]
  rw [lineMarks_getD nd _ c (by rw [hrow]; exact hc)]
  rw [lineMarks_getD nd _ r (by rw [hcol]; exact hr)]
  simp [Bool.or_assoc]

/-!
Breaking a run: a single non-sentinel sample between a pixel and the edge
keeps that pixel out of the corresponding border run.
-/

/-- A non-sentinel sample at or before position c keeps c out of the
leading run. -/
theorem inLeadingRun_false_of_break (nd : Sample) (l : List Sample) (c j : Nat)
    (hj : j ≤ c) (hjl : j < l.length)
    (hbreak : sampleEq (l.getD j Sample.nan) nd = false) :
    inLeadingRun nd l c = false := by
  rw [inLeadingRun]
  cases hall : (l.take (c + 1)).all (fun x => sampleEq x nd) with
  | false => simp
  | true =>
    exfalso
    have hjt : j < (l.take (c + 1)).length := by
      rw [List.length_take]; omega
    have hmem := getD_mem (l.take (c + 1)) j Sample.nan hjt
    have heq := getD_take l (c + 1) j Sample.nan (by omega)
    have hsat := List.all_eq_true.mp hall _ hmem
    rw [heq, hbreak] at hsat
    exact Bool.false_ne_true hsat

/-- A non-sentinel sample at or after position c keeps c out of the
trailing run. -/
theorem inTrailingRun_false_of_break (nd : Sample) (l : List Sample) (c j : Nat)
    (hj : c ≤ j) (hjl : j < l.length)
    (hbreak : sampleEq (l.getD j Sample.nan) nd = false) :
    inTrailingRun nd l c = false := by
  rw [inTrailingRun]
  cases hall : (l.drop c).all (fun x => sampleEq x nd) with
  | false => simp
  | true =>
    exfalso
    have hjd : j - c < (l.drop c).length := by
      rw [List.length_drop]; omega
    have hmem := getD_mem (l.drop c) (j - c) Sample.nan hjd
    have h5 : c + (j - c) = j := by omega
    have heq : (l.drop c).getD (j - c) Sample.nan = l.getD j Sample.nan := by
      rw [getD_drop, h5]
    have hsat := List.all_eq_true.mp hall _ hmem
    rw [heq, hbreak] at hsat
    exact Bool.false_ne_true hsat

/-!
Uniform rasters: scans over lines that contain no sentinel sample, and
lines that contain nothing else.
-/

/-- A line without sentinel samples gets no forward-scan marks. -/
theorem scanLine_all_false (nd : Sample) (l : List Sample)
    (hall : ∀ x ∈ l, sampleEq x nd = false) :
    scanLine nd l = List.replicate l.length false := by
  cases l with
  | nil => rfl
  | cons x xs =>
    have hx := hall x (List.mem_cons_self x xs)
    simp [scanLine, hx]

/-- A line made only of sentinel samples is marked in full by the forward
scan. -/
theorem scanLine_all_true (nd : Sample) (l : List Sample)
    (hall : ∀ x ∈ l, sampleEq x nd = true) :
    scanLine nd l = List.replicate l.length true := by
  induction l with
  | nil => rfl
  | cons x xs ih =>
    have hx := hall x (List.mem_cons_self x xs)
    have ih' := ih (fun y hy => hall y (List.mem_cons_of_mem x hy))
    simp [scanLine, hx, ih', List.replicate_succ]

/-- A line without sentinel samples gets no marks at all. -/
theorem lineMarks_all_false (nd : Sample) (l : List Sample)
    (hall : ∀ x ∈ l, sampleEq x nd = false) :
    lineMarks nd l = List.replicate l.length false := by
  have h1 := scanLine_all_false nd l hall
  have h2 : scanLine nd l.reverse = List.replicate l.length false := by
    rw [scanLine_all_false nd l.reverse
      (fun x hx => hall x (List.mem_reverse.mp hx)), List.length_reverse]
  rw [lineMarks, h1, h2, List.reverse_replicate, zipWith_replicate]
  rfl

/-- A line made only of sentinel samples is marked in full. -/
theorem lineMarks_all_true (nd : Sample) (l : List Sample)
    (hall : ∀ x ∈ l, sampleEq x nd = true) :
    lineMarks nd l = List.replicate l.length true := by
  have h1 := scanLine_all_true nd l hall
  have h2 : scanLine nd l.reverse = List.replicate l.length true := by
    rw [scanLine_all_true nd l.reverse
      (fun x hx => hall x (List.mem_reverse.mp hx)), List.length_reverse]
  rw [lineMarks, h1, h2, List.reverse_replicate, zipWith_replicate]
  rfl

/-- Every element of a partial raster row taken with default [] comes from
an actual row. -/
theorem mem_getD_row {α : Type} (m : List (List α)) (r : Nat) (x : α)
    (hx : x ∈ m.getD r []) : ∃ row ∈ m, x ∈ row := by
  by_cases hr : r < m.length
  · exact ⟨m.getD r [], getD_mem m r [] hr, hx⟩
  · rw [List.getD_eq_default _ _ (Nat.le_of_not_lt hr)] at hx
    simp at hx

/-- Columns of a sentinel-free raster are sentinel-free (out-of-row reads
give NaN, which matches no sentinel). -/
theorem column_all_false (nd : Sample) (m : List (List Sample)) (c : Nat)
    (hall : ∀ row ∈ m, ∀ x ∈ row, sampleEq x nd = false) :
    ∀ x ∈ column m c, sampleEq x nd = false := by
  intro x hx
  rw [column] at hx
  obtain ⟨row, hrow, rfl⟩ := List.mem_map.mp hx
  by_cases hc : c < row.length
  · exact hall row hrow _ (getD_mem row c Sample.nan hc)
  · rw [List.getD_eq_default _ _ (Nat.le_of_not_lt hc)]
    rfl

/-!
Claim theorems.
-/

/-- C1: for every raster of height H and width W and every sentinel, the
detector sets the (pre-zeroed) mask at (r, c) to true if and only if the
pixel lies in a leading or trailing run of sentinel-equal samples along
its row scanned from the left or right edge, or along its column scanned
from the top or bottom edge; the final mask is the OR of the four
directional scans. -/
theorem claim_C1_mask_iff_border_run (raster : List (List Sample)) (h w : Nat)
    (nd : Sample) (hh : raster.length = h) (hw : ∀ row ∈ raster, row.length = w)
    (r c : Nat) (hr : r < h) (hc : c < w) :
    maskAt (buildBorderNodataMask raster (zeroMask h w) h w nd) r c = true
      ↔ (inLeadingRun nd (raster.getD r []) c = true
         ∨ inTrailingRun nd (raster.getD r []) c = true
         ∨ inLeadingRun nd (column raster c) r = true
         ∨ inTrailingRun nd (column raster c) r = true) := by
  rw [maskAt_build_runs raster h w nd hh hw r c hr hc]
  simp [Bool.or_eq_true, or_assoc]

/-- Concrete 2 by 2 raster used to witness C1. -/
def c1Raster : List (List Sample) :=
  [[Sample.num (-32768), Sample.num 5], [Sample.num 5, Sample.num 5]]

/-- Witness for C1 at a concrete raster and pixel. -/
theorem claim_C1_mask_iff_border_run_witness :
    maskAt (buildBorderNodataMask c1Raster (zeroMask 2 2) 2 2 (Sample.num (-32768))) 0 0 = true
      ↔ (inLeadingRun (Sample.num (-32768)) (c1Raster.getD 0 []) 0 = true
         ∨ inTrailingRun (Sample.num (-32768)) (c1Raster.getD 0 []) 0 = true
         ∨ inLeadingRun (Sample.num (-32768)) (column c1Raster 0) 0 = true
         ∨ inTrailingRun (Sample.num (-32768)) (column c1Raster 0) 0 = true) :=
  claim_C1_mask_iff_border_run c1Raster 2 2 (Sample.num (-32768))
    (by decide) (by decide) 0 0 (by decide) (by decide)

/-- C2: on the 3 by 3 raster [[ND,ND,ND],[ND,5,ND],[ND,ND,5]] with ND the
sentinel, the detector produces exactly the mask
[[T,T,T],[T,F,T],[T,T,F]]. -/
theorem claim_C2_concrete_3x3 :
    buildBorderNodataMask
      [[Sample.num (-32768), Sample.num (-32768), Sample.num (-32768)],
       [Sample.num (-32768), Sample.num 5, Sample.num (-32768)],
       [Sample.num (-32768), Sample.num (-32768), Sample.num 5]]
      (zeroMask 3 3) 3 3 (Sample.num (-32768))
      = [[true, true, true], [true, false, true], [true, true, false]] := by
  decide

/-- C3: a raster in which no sample equals the sentinel leaves the
pre-zeroed mask all-false, and a raster in which every sample equals the
sentinel produces an all-true mask. -/
theorem claim_C3_uniform_rasters (raster : List (List Sample)) (h w : Nat)
    (nd : Sample) :
    ((∀ row ∈ raster, ∀ x ∈ row, sampleEq x nd = false) →
        buildBorderNodataMask raster (zeroMask h w) h w nd = zeroMask h w)
    ∧ (raster.length = h → (∀ row ∈ raster, row.length = w) →
        (∀ row ∈ raster, ∀ x ∈ row, sampleEq x nd = true) →
        buildBorderNodataMask raster (zeroMask h w) h w nd
          = List.replicate h (List.replicate w true)) := by
  constructor
  · intro hall
    rw [buildBorderNodataMask, zeroMask]
    rw [List.eq_replicate_iff]
    refine ⟨by simp, ?_⟩
    intro rowOut hrowOut
    obtain ⟨r, hrmem, rfl⟩ := List.mem_map.mp hrowOut
    rw [List.eq_replicate_iff]
    refine ⟨by simp, ?_⟩
    intro b hb
    obtain ⟨c, hcmem, rfl⟩ := List.mem_map.mp hb
    have hrowall : ∀ x ∈ raster.getD r [], sampleEq x nd = false := by
      intro x hx
      obtain ⟨row, hrow, hxrow⟩ := mem_getD_row raster r x hx
      exact hall row hrow x hxrow
    have h1 : (lineMarks nd (raster.getD r [])).getD c false = false := by
      rw [lineMarks_all_false nd _ hrowall]
      exact getD_replicate_self _ c false
    have h2 : (lineMarks nd (column raster c)).getD r false = false := by
      rw [lineMarks_all_false nd _ (column_all_false nd raster c hall)]
      exact getD_replicate_self _ r false
    rw [replicate_getD_getD, h1, h2]
    rfl
  · intro hh hw hall
    rw [buildBorderNodataMask]
    rw [List.eq_replicate_iff]
    refine ⟨by simp, ?_⟩
    intro rowOut hrowOut
    obtain ⟨r, hrmem, rfl⟩ := List.mem_map.mp hrowOut
    rw [List.eq_replicate_iff]
    refine ⟨by simp, ?_⟩
    intro b hb
    obtain ⟨c, hcmem, rfl⟩ := List.mem_map.mp hb
    have hr : r < h := List.mem_range.mp hrmem
    have hc : c < w := List.mem_range.mp hcmem
    have hrl : r < raster.length := by rw [hh]; exact hr
    have hrowmem : raster.getD r [] ∈ raster := getD_mem raster r [] hrl
    have hrowlen : (raster.getD r []).length = w := hw _ hrowmem
    have h1 : (lineMarks nd (raster.getD r [])).getD c false = true := by
      rw [lineMarks_all_true nd _ (fun x hx => hall _ hrowmem x hx), hrowlen]
      rw [List.getD_eq_getElem _ _ (by simpa using hc), List.getElem_replicate]
    rw [h1]
    simp

/-- Witness for C3: a sentinel-free raster keeps the mask all-false and an
all-sentinel raster fills it. -/
theorem claim_C3_uniform_rasters_witness :
    buildBorderNodataMask [[Sample.num 1, Sample.num 2]] (zeroMask 1 2) 1 2
        (Sample.num 9) = zeroMask 1 2
    ∧ buildBorderNodataMask [[Sample.num 9, Sample.num 9]] (zeroMask 1 2) 1 2
        (Sample.num 9) = List.replicate 1 (List.replicate 2 true) :=
  ⟨(claim_C3_uniform_rasters [[Sample.num 1, Sample.num 2]] 1 2 (Sample.num 9)).1
      (by decide),
   (claim_C3_uniform_rasters [[Sample.num 9, Sample.num 9]] 1 2 (Sample.num 9)).2
      (by decide) (by decide) (by decide)⟩

/-- C4: an isolated interior no-data pixel, shielded from both row edges
and both column edges by a non-sentinel sample, is left unmasked. -/
theorem claim_C4_isolated_interior (raster : List (List Sample)) (h w : Nat)
    (nd : Sample) (r c r1 r2 c1 c2 : Nat)
    (hh : raster.length = h) (hw : ∀ row ∈ raster, row.length = w)
    (hr : r < h) (hc : c < w)
    (_hpix : sampleEq (rasterAt raster r c) nd = true)
    (hc1 : c1 < c) (hx1 : sampleEq (rasterAt raster r c1) nd = false)
    (hc2 : c < c2) (hc2w : c2 < w) (hx2 : sampleEq (rasterAt raster r c2) nd = false)
    (hr1 : r1 < r) (hx3 : sampleEq (rasterAt raster r1 c) nd = false)
    (hr2 : r < r2) (hr2h : r2 < h) (hx4 : sampleEq (rasterAt raster r2 c) nd = false) :
    maskAt (buildBorderNodataMask raster (zeroMask h w) h w nd) r c = false := by
  have hrl : r < raster.length := by rw [hh]; exact hr
  have hrowlen : (raster.getD r []).length = w := hw _ (getD_mem raster r [] hrl)
  have hcollen : (column raster c).length = h := by rw [column_length, hh]
  rw [maskAt_build_runs raster h w nd hh hw r c hr hc]
  have e1 : inLeadingRun nd (raster.getD r []) c = false := by
    apply inLeadingRun_false_of_break nd _ c c1 (Nat.le_of_lt hc1)
    · rw [hrowlen]; omega
    · exact hx1
  have e2 : inTrailingRun nd (raster.getD r []) c = false := by
    apply inTrailingRun_false_of_break nd _ c c2 (Nat.le_of_lt hc2)
    · rw [hrowlen]; exact hc2w
    · exact hx2
  have e3 : inLeadingRun nd (column raster c) r = false := by
    apply inLeadingRun_false_of_break nd _ r r1 (Nat.le_of_lt hr1)
    · rw [hcollen]; omega
    · rw [column_getD raster c r1 (by rw [hh]; omega)]
      exact hx3
  have e4 : inTrailingRun nd (column raster c) r = false := by
    apply inTrailingRun_false_of_break nd _ r r2 (Nat.le_of_lt hr2)
    · rw [hcollen]; exact hr2h
    · rw [column_getD raster c r2 (by rw [hh]; exact hr2h)]
      exact hx4
  rw [e1, e2, e3, e4]
  rfl

/-- Concrete 3 by 3 raster with a single interior no-data pixel, used to
witness C4. -/
def c4Raster : List (List Sample) :=
  [[Sample.num 5, Sample.num 5, Sample.num 5],
   [Sample.num 5, Sample.num (-32768), Sample.num 5],
   [Sample.num 5, Sample.num 5, Sample.num 5]]

/-- Witness for C4: the centre pixel of the concrete raster stays false. -/
theorem claim_C4_isolated_interior_witness :
    maskAt (buildBorderNodataMask c4Raster (zeroMask 3 3) 3 3
      (Sample.num (-32768))) 1 1 = false :=
  claim_C4_isolated_interior c4Raster 3 3 (Sample.num (-32768)) 1 1 0 2 0 2
    (by decide) (by decide) (by decide) (by decide) (by decide) (by decide)
    (by decide) (by decide) (by decide) (by decide) (by decide) (by decide)
    (by decide) (by decide) (by decide)

/-- C5: with height or width zero the detector writes nothing: the mask
buffer comes back unchanged. -/
theorem claim_C5_empty_noop (raster : List (List Sample)) (mask : List (List Bool))
    (h w : Nat) (nd : Sample) (hempty : h = 0 ∨ w = 0)
    (hlen : mask.length = h) (hrows : ∀ row ∈ mask, row.length = w) :
    buildBorderNodataMask raster mask h w nd = mask := by
  cases hempty with
  | inl h0 =>
    subst h0
    rw [buildBorderNodataMask]
    simp only [List.range_zero, List.map_nil]
    exact (List.length_eq_zero.mp hlen).symm
  | inr w0 =>
    subst w0
    rw [buildBorderNodataMask]
    apply List.ext_getElem
    · simp [hlen]
    · intro i h1 h2
      have hmi : mask[i] = [] :=
        List.length_eq_zero.mp (hrows _ (List.getElem_mem h2))
      simp [hmi]

/-- Witness for C5 on a height-zero call. -/
theorem claim_C5_empty_noop_witness :
    buildBorderNodataMask [] [] 0 5 (Sample.num 0) = [] :=
  claim_C5_empty_noop [] [] 0 5 (Sample.num 0) (Or.inl rfl) rfl (by decide)

/-- C6: the wrapper's intended sentinel handling fails for a truthy
no_data_value: because dsm_memview is only assigned inside the falsy
branch, a call with a truthy sentinel raises before any sentinel is passed
to the detector (evaluated here at a concrete truthy input). -/
theorem claim_C6_truthy_sentinel_call_fails :
    build_border_nodata_mask [[Sample.num 5, Sample.num 0]] (Sample.num 7)
      = { dsm_strip := [[Sample.num 5, Sample.num 0]],
          outcome := PyOutcome.unboundLocalError } := rfl

/-- C7: the detector is a pure function of its arguments that writes only
the mask buffer; the raster component of the caller-visible state is
unchanged and the mask is a function of the arguments alone. -/
theorem claim_C7_pure_frame (st : DetectorCall) (h w : Nat) (nd : Sample) :
    (runDetector st h w nd).raster = st.raster
    ∧ (runDetector st h w nd).mask
        = buildBorderNodataMask st.raster st.mask h w nd :=
  ⟨rfl, rfl⟩

/-- C8: running the detector twice on the same raster, each time into a
freshly zeroed mask, yields identical masks. -/
theorem claim_C8_deterministic (raster : List (List Sample)) (h w : Nat)
    (nd : Sample) :
    (runDetector { raster := raster, mask := zeroMask h w } h w nd).mask
      = (runDetector { raster := raster, mask := zeroMask h w } h w nd).mask :=
  rfl

/-- C9: contrary to the safety requirement, a truthy no_data_value reaches
the native call with dsm_memview never assigned: the wrapper raises
UnboundLocalError instead of handing an initialized raster pointer to the
detector (evaluated at a concrete truthy input). -/
theorem claim_C9_unassigned_memview :
    (build_border_nodata_mask [[Sample.num 1]] (Sample.num (-9999))).outcome
      = PyOutcome.unboundLocalError := rfl

/-- Counterexample to C10 as stated: a falsy call on a NaN-free strip
leaves the caller's array exactly as it was, so the input is not always
changed in the falsy case. -/
theorem claim_C10_counterexample :
    pyTruthy (Sample.num 0) = false
    ∧ (build_border_nodata_mask [[Sample.num 1]] (Sample.num 0)).dsm_strip
        = [[Sample.num 1]] :=
  ⟨rfl, rfl⟩

/-- C10 (amended): when no_data_value is falsy the wrapper rewrites every
NaN sample of dsm_strip to -32768 in place, so the caller's array changes
exactly when it contained a NaN; for truthy no_data_value the array is
never written. -/
theorem claim_C10_nan_rewrite_in_place (dsm_strip : List (List Sample))
    (no_data_value : Sample) :
    (pyTruthy no_data_value = false →
        (build_border_nodata_mask dsm_strip no_data_value).dsm_strip
          = dsm_strip.map (List.map nanToNum))
    ∧ (pyTruthy no_data_value = true →
        (build_border_nodata_mask dsm_strip no_data_value).dsm_strip
          = dsm_strip) := by
  constructor
  · intro hf
    simp only [build_border_nodata_mask, hf, Bool.false_eq_true, if_false]
    split <;> rfl
  · intro ht
    simp [build_border_nodata_mask, ht]

/-- Witness for the amended C10 at a concrete NaN-bearing strip, once with
a falsy and once with a truthy sentinel. -/
theorem claim_C10_nan_rewrite_in_place_witness :
    (build_border_nodata_mask [[Sample.nan]] (Sample.num 0)).dsm_strip
        = [[Sample.nan]].map (List.map nanToNum)
    ∧ (build_border_nodata_mask [[Sample.nan]] (Sample.num 3)).dsm_strip
        = [[Sample.nan]] :=
  ⟨(claim_C10_nan_rewrite_in_place [[Sample.nan]] (Sample.num 0)).1 (by decide),
   (claim_C10_nan_rewrite_in_place [[Sample.nan]] (Sample.num 3)).2 (by decide)⟩
